import Mathlib

/-!
Verification development for the pysfn function-to-state-machine compiler.

The definitions below are shallow embeddings of the Python sources:
  - src/pysfn/steps.py    (SFNScope, ChildScope, MapScope, handle_* methods,
                           update_param_name, CatchHandler)
  - src/pysfn/condition.py (comparator_map, build_condition, if_value,
                           get_var_name)
  - src/pysfn/lmbda.py    (PythonLambda.register and the dispatcher module
                           generated by PythonLambda.create_construct)

Python dicts are modelled as insertion-ordered association lists, machine
values (JSON payload fragments) as the inductive `JValue`, and raising code
as `Except String`.
-/

namespace PySfn

/-- Values that appear in emitted state parameters.  `jsonPath` models the
token returned by `aws_cdk.aws_stepfunctions.JsonPath.string_at`; in Python
that token is a string of the form `${Token[...]}`, so it never satisfies
`startswith("States")` and we keep it as a distinct constructor carrying the
original path text. -/
inductive JValue where
  | null
  | str (s : String)
  | int (n : Int)
  | bool (b : Bool)
  | float (q : ℚ)
  | jsonPath (p : String)
  deriving DecidableEq, Repr

/-- Compile-time scope bookkeeping.  `vars` is the key list of the Python
field `SFNScope.variables : Dict[str, Type]` (renamed because `variables`
is a reserved token in Lean; the stored types are always `typing.Any` on
every path relevant here, so only the ordered key set is modelled).  `scopedVariables` is `ChildScope.scoped_variables` /
`MapScope.scoped_variables`, filled by the `_added_var` override; it is
ignored by the plain root scope, which matches `SFNScope._added_var` being a
no-op reader-free sink.  `updatedVars` is `MapScope._updated_vars`, filled by
the `_updated_var` override; the base-class `_updated_var` is a no-op, and no
code ever reads `updatedVars` of a non-map scope, so recording it uniformly
is observationally faithful. -/
structure Scope where
  vars : List String
  scopedVariables : List String
  updatedVars : List String
  deriving DecidableEq, Repr

/-- Dict key insertion: `self.vars[key] = var_type` keeps the position
of an existing key and appends a fresh one. -/
def insertKey (vs : List String) (k : String) : List String :=
  if k ∈ vs then vs else vs ++ [k]

/-- SFNScope.add_var: store the key and notify `_added_var` (which appends to
`scoped_variables` in child and map scopes). -/
def add_var (sc : Scope) (k : String) : Scope :=
  { sc with
    vars := insertKey sc.vars k
    scopedVariables := sc.scopedVariables ++ [k] }

/-- MapScope._updated_var (a no-op for the other scope kinds, see `Scope`). -/
def updated_var (sc : Scope) (k : String) : Scope :=
  { sc with updatedVars := sc.updatedVars ++ [k] }

/-- Python str.startswith, stated over the character lists so that it
evaluates inside the kernel. -/
def pyStartsWith (s p : String) : Bool := p.data.isPrefixOf s.data

/-- steps.py update_param_name: a raw string value that starts with
`States` turns its key into a path parameter key `key.$`. -/
def update_param_name (key : String) (value : JValue) : String :=
  match value with
  | .str s => if pyStartsWith s ("States") then key ++ (".$") else key
  | _ => key

/-- SFNScope.build_register_assignment (steps.py 160-177).  Returns the
emitted Pass parameters together with the updated scope:
1. copy the bindings, record every binding key as updated, and rewrite
   `None` values to the empty string (the documented CDK null workaround);
2. carry forward every scope variable that is not a binding key as the
   JSON path `$.<register_path><name>`;
3. `add_var` every binding key that the scope does not know yet;
4. rename keys through `update_param_name`. -/
def build_register_assignment (sc : Scope) (values : List (String × JValue))
    (register_path : String) : List (String × JValue) × Scope :=
  let sc1 := values.foldl (fun s kv => updated_var s kv.1) sc
  let params1 := values.map
    (fun kv => (kv.1, if kv.2 = JValue.null then JValue.str "" else kv.2))
  let carried := (sc.vars.filter (fun v => v ∉ values.map Prod.fst)).map
    (fun v => (v, JValue.jsonPath ("$." ++ register_path ++ v)))
  let sc2 := (values.map Prod.fst).foldl
    (fun s k => if k ∈ s.vars then s else add_var s k) sc1
  (((params1 ++ carried).map (fun kv => (update_param_name kv.1 kv.2, kv.2))), sc2)

/-- Unfolding lemma: the emitted parameters of `build_register_assignment`. -/
theorem bra_params_eq (sc : Scope) (values : List (String × JValue))
    (register_path : String) :
    (build_register_assignment sc values register_path).1 =
      (values.map
        (fun kv => (kv.1, if kv.2 = JValue.null then JValue.str "" else kv.2)) ++
       (sc.vars.filter (fun v => v ∉ values.map Prod.fst)).map
        (fun v => (v, JValue.jsonPath ("$." ++ register_path ++ v)))).map
        (fun kv => (update_param_name kv.1 kv.2, kv.2)) := rfl

/-- Unfolding lemma: the scope effect of `build_register_assignment`. -/
theorem bra_scope_eq (sc : Scope) (values : List (String × JValue))
    (register_path : String) :
    (build_register_assignment sc values register_path).2 =
      (values.map Prod.fst).foldl
        (fun s k => if k ∈ s.vars then s else add_var s k)
        (values.foldl (fun s kv => updated_var s kv.1) sc) := rfl

/-- Keys are preserved or marked as path keys by `update_param_name`. -/
theorem update_param_name_cases (key : String) (value : JValue) :
    update_param_name key value = key ∨
    update_param_name key value = key ++ (".$") := by
  cases value with
  | str s =>
    by_cases hs : pyStartsWith s ("States")
    · right; simp [update_param_name, hs]
    · left; simp [update_param_name, hs]
  | null => exact Or.inl rfl
  | int n => exact Or.inl rfl
  | bool b => exact Or.inl rfl
  | float q => exact Or.inl rfl
  | jsonPath p => exact Or.inl rfl

/-- Claim C1: every variable known to the scope has a key in the emitted
parameters.  A variable not named in the bindings is carried forward
verbatim as the path `$.<register_path><name>`; a variable that is a binding
key keeps its name, possibly suffixed with the builder path-key marker
`.$` added by `update_param_name`.  No scope variable is dropped. -/
theorem register_closure_C1 (sc : Scope) (values : List (String × JValue))
    (register_path : String) (v : String) (hv : v ∈ sc.vars) :
    (v ∉ values.map Prod.fst →
      (v, JValue.jsonPath ("$." ++ register_path ++ v)) ∈
        (build_register_assignment sc values register_path).1) ∧
    ∃ p ∈ (build_register_assignment sc values register_path).1,
      p.1 = v ∨ p.1 = v ++ (".$") := by
  have carry : v ∉ values.map Prod.fst →
      (v, JValue.jsonPath ("$." ++ register_path ++ v)) ∈
        (build_register_assignment sc values register_path).1 := by
    intro hnot
    rw [bra_params_eq]
    have hcf : v ∈ sc.vars.filter (fun v => v ∉ values.map Prod.fst) :=
      List.mem_filter.mpr ⟨hv, decide_eq_true hnot⟩
    have hc := List.mem_map_of_mem
      (fun v => (v, JValue.jsonPath ("$." ++ register_path ++ v))) hcf
    exact List.mem_map_of_mem _ (List.mem_append_right _ hc)
  refine ⟨carry, ?_⟩
  by_cases hmem : v ∈ values.map Prod.fst
  · rcases List.mem_map.mp hmem with ⟨kv, hkv, hfst⟩
    have h1 : (v, if kv.2 = JValue.null then JValue.str "" else kv.2) ∈
        values.map
          (fun kv => (kv.1, if kv.2 = JValue.null then JValue.str "" else kv.2)) := by
      have h := List.mem_map_of_mem
        (fun kv : String × JValue =>
          (kv.1, if kv.2 = JValue.null then JValue.str "" else kv.2)) hkv
      simp only at h
      rwa [hfst] at h
    refine ⟨(update_param_name v (if kv.2 = JValue.null then JValue.str "" else kv.2),
      if kv.2 = JValue.null then JValue.str "" else kv.2), ?_, ?_⟩
    · rw [bra_params_eq]
      exact List.mem_map_of_mem _ (List.mem_append_left _ h1)
    · exact update_param_name_cases v _
  · exact ⟨(v, JValue.jsonPath ("$." ++ register_path ++ v)), carry hmem, Or.inl rfl⟩

/-- Witness for C1 at a concrete scope and binding list. -/
theorem register_closure_C1_witness :
    ("a", JValue.jsonPath ("$.register.a")) ∈
      (build_register_assignment ⟨["a"], [], []⟩ [("x", JValue.int 1)]
        ("register.")).1 :=
  (register_closure_C1 ⟨["a"], [], []⟩ [("x", JValue.int 1)] ("register.")
    ("a") (by decide)).1 (by decide)

/-- Claim C2: a binding whose value is the null literal is emitted as a
present key bound to the empty string, and no parameter of the emitted Pass
ever carries a null value. -/
theorem null_preservation_C2 (sc : Scope) (values : List (String × JValue))
    (register_path : String) (k : String) (hk : (k, JValue.null) ∈ values) :
    (k, JValue.str "") ∈ (build_register_assignment sc values register_path).1 ∧
    ∀ p ∈ (build_register_assignment sc values register_path).1,
      p.2 ≠ JValue.null := by
  constructor
  · have h1 : (k, JValue.str "") ∈
        values.map
          (fun kv => (kv.1, if kv.2 = JValue.null then JValue.str "" else kv.2)) := by
      have := List.mem_map_of_mem
        (fun kv : String × JValue =>
          (kv.1, if kv.2 = JValue.null then JValue.str "" else kv.2)) hk
      simpa using this
    have hfalse : pyStartsWith "" ("States") = false := by decide
    have h2 : update_param_name k (JValue.str "") = k := by
      simp [update_param_name, hfalse]
    have h3 := List.mem_map_of_mem
      (fun kv : String × JValue => (update_param_name kv.1 kv.2, kv.2))
      (List.mem_append_left
        ((sc.vars.filter (fun v => v ∉ values.map Prod.fst)).map
          (fun v => (v, JValue.jsonPath ("$." ++ register_path ++ v)))) h1)
    rw [bra_params_eq]
    simpa [h2] using h3
  · intro p hp
    rw [bra_params_eq] at hp
    rcases List.mem_map.mp hp with ⟨kv, hkv, hrw⟩
    rcases List.mem_append.mp hkv with hkv1 | hkv2
    · rcases List.mem_map.mp hkv1 with ⟨kv0, _, hkv0⟩
      subst hrw
      by_cases h0 : kv0.2 = JValue.null
      · rw [← hkv0]; simp [h0]
      · rw [← hkv0]; simp [h0]
    · rcases List.mem_map.mp hkv2 with ⟨v0, _, hv0⟩
      subst hrw
      rw [← hv0]
      simp

/-- Witness for C2 at a concrete binding list containing a null value. -/
theorem null_preservation_C2_witness :
    ("x", JValue.str "") ∈
      (build_register_assignment ⟨["a"], [], []⟩ [("x", JValue.null)] ("")).1 :=
  (null_preservation_C2 ⟨["a"], [], []⟩ [("x", JValue.null)] ("") ("x")
    (by decide)).1

/-! ### Scope isolation (steps.py ChildScope, MapScope, handle_if, handle_try,
handle_for)

By inspection of `SFNScope.handle_op`, every statement handler either leaves
its enclosing scope untouched (pass, return, bare expression statements) or
mutates it exclusively through calls to `self.build_register_assignment`
(plain and annotated assignment, aug-assign, list append, call-result
registration, loop-entry registration, post-loop consolidation); `if`, `try`
and `for` bodies are compiled against fresh `ChildScope` / `MapScope` copies.
The compilation of a body is therefore represented below by the list of the
binding lists it feeds to `build_register_assignment` on its own scope,
written `ops : List (List (String × JValue))`. -/

/-- Constructor of `ChildScope` (steps.py 1081-1088): the variable table is a
copy of the parent table; `scoped_variables` starts empty. -/
def childScopeOf (parent : Scope) : Scope :=
  ⟨parent.vars, [], []⟩

/-- Constructor of `MapScope` (steps.py 1053-1058): the variable table is a
copy of the parent table; `scoped_variables` and `_updated_vars` start
empty. -/
def mapScopeOf (parent : Scope) : Scope :=
  ⟨parent.vars, [], []⟩

/-- MapScope.updated_vars (steps.py 1076-1078): the recorded updates minus
the variables first added inside the scope. -/
def updated_vars (ms : Scope) : List String :=
  ms.updatedVars.filter (fun v => v ∉ ms.scopedVariables)

/-- One body compilation seen from its enclosing scope: the sequence of
`build_register_assignment` scope effects it performs. -/
def runBody (sc : Scope) (ops : List (List (String × JValue))) : Scope :=
  ops.foldl
    (fun s values => (build_register_assignment s values ("register.")).2) sc

/-- Scope effect of SFNScope.handle_if (steps.py 641-657): both arms are
compiled against fresh child scopes, whose final states are dropped; the
parent scope is returned untouched. -/
def handle_if_scope (sc : Scope) (bodyOps orelseOps : List (List (String × JValue))) :
    Scope :=
  let _ifScope := runBody (childScopeOf sc) bodyOps
  let _elseScope := runBody (childScopeOf sc) orelseOps
  sc

/-- Scope effect of SFNScope.handle_try (steps.py 261-286): the try body and
every handler body are compiled against fresh child scopes (a bound
exception name is pre-registered in the handler child scope); all of them
are dropped and the parent scope is returned untouched. -/
def handle_try_scope (sc : Scope) (bodyOps : List (List (String × JValue)))
    (handlers : List (Option String × List (List (String × JValue)))) : Scope :=
  let _tryScope := runBody (childScopeOf sc) bodyOps
  let _handlerScopes := handlers.map (fun h =>
    runBody
      (match h.1 with
       | some n => add_var (childScopeOf sc) n
       | none => childScopeOf sc) h.2)
  sc

/-- Scope effect of SFNScope.handle_for (steps.py 383-446): a fresh map
scope receives the loop target through the entry step, the body is compiled
inside it, and when `MapScope.updated_vars` is nonempty, a consolidation
`build_register_assignment` with those names is applied to the parent.
Returns the parent scope after the loop together with the consolidated
variable list. -/
def handle_for_scope (sc : Scope) (target : String)
    (bodyOps : List (List (String × JValue))) : Scope × List String :=
  let ms0 := mapScopeOf sc
  let ms1 := (build_register_assignment ms0
    [(target, JValue.jsonPath ("$." ++ target))] ("register.")).2
  let ms2 := runBody ms1 bodyOps
  let upd := updated_vars ms2
  if upd.isEmpty then (sc, upd)
  else
    ((build_register_assignment sc
        (upd.map (fun v =>
          (v, JValue.jsonPath ("$.register.loopResult[*]." ++ v ++ "[*]"))))
        ("register.")).2,
     upd)

theorem mem_insertKey (vs : List String) (k v : String) :
    v ∈ insertKey vs k ↔ v ∈ vs ∨ v = k := by
  unfold insertKey
  by_cases h : k ∈ vs
  · simp only [if_pos h]
    constructor
    · exact Or.inl
    · rintro (hv | rfl)
      · exact hv
      · exact h
  · simp [if_neg h]

/-- Proof-side name for the key-registration fold inside
`build_register_assignment`. -/
def registerNewKeys (keys : List String) (s : Scope) : Scope :=
  keys.foldl (fun s k => if k ∈ s.vars then s else add_var s k) s

theorem bra_scope_as_registerNewKeys (sc : Scope) (values : List (String × JValue))
    (register_path : String) :
    (build_register_assignment sc values register_path).2 =
      registerNewKeys (values.map Prod.fst)
        { sc with updatedVars := sc.updatedVars ++ values.map Prod.fst } := by
  rw [bra_scope_eq, registerNewKeys]
  congr 1
  induction values generalizing sc with
  | nil => simp
  | cons kv rest ih =>
    simp only [List.foldl_cons, List.map_cons]
    rw [ih]
    simp [updated_var]

theorem registerNewKeys_vars_mono (keys : List String) (s : Scope) (v : String)
    (hv : v ∈ s.vars) : v ∈ (registerNewKeys keys s).vars := by
  induction keys generalizing s with
  | nil => exact hv
  | cons k rest ih =>
    simp only [registerNewKeys, List.foldl_cons]
    by_cases h : k ∈ s.vars
    · rw [if_pos h]; exact ih s hv
    · rw [if_neg h]
      exact ih _ (by simp [add_var, mem_insertKey, hv])

theorem registerNewKeys_scoped_mono (keys : List String) (s : Scope) (v : String)
    (hv : v ∈ s.scopedVariables) : v ∈ (registerNewKeys keys s).scopedVariables := by
  induction keys generalizing s with
  | nil => exact hv
  | cons k rest ih =>
    simp only [registerNewKeys, List.foldl_cons]
    by_cases h : k ∈ s.vars
    · rw [if_pos h]; exact ih s hv
    · rw [if_neg h]
      exact ih _ (by simp [add_var, hv])

theorem registerNewKeys_updated_eq (keys : List String) (s : Scope) :
    (registerNewKeys keys s).updatedVars = s.updatedVars := by
  induction keys generalizing s with
  | nil => rfl
  | cons k rest ih =>
    simp only [registerNewKeys, List.foldl_cons]
    by_cases h : k ∈ s.vars
    · rw [if_pos h]; exact ih s
    · rw [if_neg h]
      exact ih (add_var s k)

theorem registerNewKeys_keys_vars (keys : List String) (s : Scope) (v : String)
    (hv : v ∈ keys) : v ∈ (registerNewKeys keys s).vars := by
  induction keys generalizing s with
  | nil => cases hv
  | cons k rest ih =>
    simp only [registerNewKeys, List.foldl_cons]
    rcases List.mem_cons.mp hv with rfl | hrest
    · by_cases h : v ∈ s.vars
      · rw [if_pos h]
        exact registerNewKeys_vars_mono rest s v h
      · rw [if_neg h]
        exact registerNewKeys_vars_mono rest _ v (by simp [add_var, mem_insertKey])
    · by_cases h : k ∈ s.vars
      · rw [if_pos h]; exact ih s hrest
      · rw [if_neg h]; exact ih _ hrest

theorem registerNewKeys_vars_origin (keys : List String) (s : Scope) (v : String)
    (hv : v ∈ (registerNewKeys keys s).vars) :
    v ∈ s.vars ∨ v ∈ (registerNewKeys keys s).scopedVariables := by
  induction keys generalizing s with
  | nil => exact Or.inl hv
  | cons k rest ih =>
    simp only [registerNewKeys, List.foldl_cons] at hv ⊢
    by_cases h : k ∈ s.vars
    · rw [if_pos h] at hv ⊢
      exact ih s hv
    · rw [if_neg h] at hv ⊢
      rcases ih _ hv with hv1 | hv2
      · rcases (mem_insertKey s.vars k v).mp (by simpa [add_var] using hv1) with hv3 | rfl
        · exact Or.inl hv3
        · exact Or.inr (registerNewKeys_scoped_mono rest _ v (by simp [add_var]))
      · exact Or.inr hv2

theorem registerNewKeys_id_of_known (keys : List String) (s : Scope)
    (h : ∀ k ∈ keys, k ∈ s.vars) : registerNewKeys keys s = s := by
  induction keys with
  | nil => rfl
  | cons k rest ih =>
    simp only [registerNewKeys, List.foldl_cons]
    rw [if_pos (h k (List.mem_cons_self k rest))]
    exact ih (fun j hj => h j (List.mem_cons_of_mem k hj))

/-- Invariant of a scope relative to the variable table it was copied from:
every recorded update names a known variable, and every known variable was
either inherited or recorded as scope-local. -/
def ScopeInv (init : List String) (ms : Scope) : Prop :=
  (∀ v ∈ ms.updatedVars, v ∈ ms.vars) ∧
  (∀ v ∈ ms.vars, v ∈ init ∨ v ∈ ms.scopedVariables)

theorem bra_preserves_ScopeInv (init : List String) (ms : Scope)
    (values : List (String × JValue)) (register_path : String)
    (h : ScopeInv init ms) :
    ScopeInv init (build_register_assignment ms values register_path).2 := by
  rw [bra_scope_as_registerNewKeys]
  obtain ⟨hupd, hgrow⟩ := h
  constructor
  · intro v hv
    rw [registerNewKeys_updated_eq] at hv
    simp only at hv
    rcases List.mem_append.mp hv with hv1 | hv2
    · exact registerNewKeys_vars_mono _ _ v (hupd v hv1)
    · exact registerNewKeys_keys_vars _ _ v hv2
  · intro v hv
    rcases registerNewKeys_vars_origin _ _ v hv with hv1 | hv2
    · simp only at hv1
      exact (hgrow v hv1).imp id (fun h2 => registerNewKeys_scoped_mono _ _ v h2)
    · exact Or.inr hv2

theorem runBody_preserves_ScopeInv (init : List String)
    (ops : List (List (String × JValue))) (ms : Scope) (h : ScopeInv init ms) :
    ScopeInv init (runBody ms ops) := by
  induction ops generalizing ms with
  | nil => exact h
  | cons values rest ih =>
    exact ih _ (bra_preserves_ScopeInv init ms values ("register.") h)

/-- Known-keys case of `build_register_assignment`: when every binding key is
already a scope variable, the variable table is unchanged. -/
theorem bra_vars_eq_of_known (sc : Scope) (values : List (String × JValue))
    (register_path : String)
    (h : ∀ k ∈ values.map Prod.fst, k ∈ sc.vars) :
    (build_register_assignment sc values register_path).2.vars = sc.vars := by
  rw [bra_scope_as_registerNewKeys,
    registerNewKeys_id_of_known (values.map Prod.fst)
      { sc with updatedVars := sc.updatedVars ++ values.map Prod.fst } h]

/-- Abbreviation for the map scope a loop body finishes in. -/
def loopBodyScope (sc : Scope) (target : String)
    (bodyOps : List (List (String × JValue))) : Scope :=
  runBody
    ((build_register_assignment (mapScopeOf sc)
      [(target, JValue.jsonPath ("$." ++ target))] ("register.")).2) bodyOps

theorem handle_for_scope_snd (sc : Scope) (target : String)
    (bodyOps : List (List (String × JValue))) :
    (handle_for_scope sc target bodyOps).2 =
      updated_vars (loopBodyScope sc target bodyOps) := by
  unfold handle_for_scope loopBodyScope
  by_cases hemp : (updated_vars (runBody
      ((build_register_assignment (mapScopeOf sc)
        [(target, JValue.jsonPath ("$." ++ target))] ("register.")).2)
      bodyOps)).isEmpty
  · simp [hemp]
  · simp [hemp]

/-- The consolidated variables of a loop body all come from the parent table:
everything `MapScope.updated_vars` keeps was inherited, never loop-local. -/
theorem loop_updated_from_parent (sc : Scope) (target : String)
    (bodyOps : List (List (String × JValue))) (v : String)
    (hv : v ∈ updated_vars (loopBodyScope sc target bodyOps)) : v ∈ sc.vars := by
  have hinv : ScopeInv sc.vars (loopBodyScope sc target bodyOps) := by
    refine runBody_preserves_ScopeInv _ _ _ ?_
    refine bra_preserves_ScopeInv _ _ _ _ ?_
    exact ⟨fun v h => (List.not_mem_nil v h).elim, fun v h => Or.inl h⟩
  have hmem := List.mem_filter.mp hv
  have hvars := hinv.1 v hmem.1
  rcases hinv.2 v hvars with h1 | h2
  · exact h1
  · exact absurd h2 (by simpa using hmem.2)

/-- Claim C3: scope isolation.  An `if` arm and a `try`/`except` body are
compiled in child scopes copied from the parent, so the parent scope is
unchanged and a variable first defined inside is not visible afterwards; a
loop body is compiled in a map scope whose `updated_vars` exclude the
scope-local variables, so the post-loop parent variable table is exactly the
pre-loop table and a variable first defined inside the loop is neither
consolidated nor visible after the loop. -/
theorem scope_isolation_C3 (sc : Scope) (x : String) (hx : x ∉ sc.vars) :
    (∀ bodyOps orelseOps, handle_if_scope sc bodyOps orelseOps = sc) ∧
    (∀ bodyOps handlers, handle_try_scope sc bodyOps handlers = sc) ∧
    (∀ ms, ∀ v ∈ updated_vars ms, v ∉ ms.scopedVariables) ∧
    (∀ target bodyOps, (handle_for_scope sc target bodyOps).1.vars = sc.vars) ∧
    (∀ target bodyOps, x ∉ (handle_for_scope sc target bodyOps).2 ∧
      x ∉ (handle_for_scope sc target bodyOps).1.vars) := by
  have hvars : ∀ target bodyOps,
      (handle_for_scope sc target bodyOps).1.vars = sc.vars := by
    intro target bodyOps
    have hkeys : ∀ k ∈ ((updated_vars (loopBodyScope sc target bodyOps)).map
        (fun v =>
          (v, JValue.jsonPath ("$.register.loopResult[*]." ++ v ++ "[*]")))).map
            Prod.fst, k ∈ sc.vars := by
      intro k hk
      simp only [List.map_map, List.mem_map] at hk
      obtain ⟨v, hv, rfl⟩ := hk
      exact loop_updated_from_parent sc target bodyOps v hv
    unfold handle_for_scope
    by_cases hemp : (updated_vars (runBody
        ((build_register_assignment (mapScopeOf sc)
          [(target, JValue.jsonPath ("$." ++ target))] ("register.")).2)
        bodyOps)).isEmpty
    · simp [hemp]
    · simp only [hemp, Bool.false_eq_true, if_false]
      exact bra_vars_eq_of_known sc _ _ hkeys
  refine ⟨fun _ _ => rfl, fun _ _ => rfl, ?_, hvars, ?_⟩
  · intro ms v hv
    simpa using (List.mem_filter.mp hv).2
  · intro target bodyOps
    constructor
    · intro hmem
      rw [handle_for_scope_snd] at hmem
      exact hx (loop_updated_from_parent sc target bodyOps x hmem)
    · rw [hvars]
      exact hx

/-- Witness for C3: a variable first assigned inside a loop body is not
visible after the loop. -/
theorem scope_isolation_C3_witness :
    ("b" ∉ (handle_for_scope ⟨["a"], [], []⟩ ("v")
        [[("b", JValue.str ("1"))]]).2 ∧
     "b" ∉ (handle_for_scope ⟨["a"], [], []⟩ ("v")
        [[("b", JValue.str ("1"))]]).1.vars) :=
  (scope_isolation_C3 ⟨["a"], [], []⟩ ("b") (by decide)).2.2.2.2 ("v")
    [[("b", JValue.str ("1"))]]

/-! ### Condition builder (condition.py) -/

/-- Python constant values as they occur in `ast.Constant.value`.  A float is
carried as a rational: the condition builder only inspects the dynamic TYPE
of the constant, and the payload is passed through unevaluated. -/
inductive PyConst where
  | str (s : String)
  | int (n : Int)
  | float (q : ℚ)
  | bool (b : Bool)
  | none
  deriving DecidableEq, Repr

/-- The dynamic type tags `type(constant.value)` can produce here.  Python
`bool` is a distinct type from `int` for `type(...)` dictionary lookups. -/
inductive ConstType where
  | strT
  | intT
  | floatT
  | boolT
  | noneT
  deriving DecidableEq, Repr

/-- Python `type(v)` on a constant value. -/
def PyConst.pyType : PyConst → ConstType
  | .str _ => .strT
  | .int _ => .intT
  | .float _ => .floatT
  | .bool _ => .boolT
  | .none => .noneT

/-- Python `str(v)` as used in f-string interpolation.  The float case uses
the rational printer; the Python float repr differs textually, but nothing
proved below depends on the float text. -/
def pyConstStr : PyConst → String
  | .str s => s
  | .int n => toString n
  | .float q => toString q
  | .bool b => if b then "True" else "False"
  | .none => "None"

/-- Comparison operators of `ast.Compare` relevant to `comparator_map`. -/
inductive CmpOp where
  | eq
  | notEq
  | lt
  | lte
  | gt
  | gte
  deriving DecidableEq, Repr

/-- The typed SFN comparator primitives named in `comparator_map`. -/
inductive Comparator where
  | stringEquals
  | numberEquals
  | numberLessThan
  | numberGreaterThan
  deriving DecidableEq, Repr

/-- SFN Choice conditions as built through `sfn.Condition`.  Variadic
`Condition.and_` / `Condition.or_` take their conjunct lists. -/
inductive Condition where
  | cmp (c : Comparator) (path : String) (v : PyConst)
  | booleanEquals (path : String) (b : Bool)
  | isPresent (path : String)
  | isNotNull (path : String)
  | isBoolean (path : String)
  | isString (path : String)
  | isNumeric (path : String)
  | stringMatches (path : String) (pat : String)
  | andAll (cs : List Condition)
  | orAny (cs : List Condition)
  | negation (c : Condition)
  deriving Repr

/-- condition.py comparator_map (lines 6-13): the supported
(operator, constant-type) table.  Note the table has no entry for
equality against a float, a bool or None, and none for `<`/`>` against a
string. -/
def comparator_map : CmpOp → ConstType → Option Comparator
  | .eq, .strT => some .stringEquals
  | .eq, .intT => some .numberEquals
  | .gt, .intT => some .numberGreaterThan
  | .gt, .floatT => some .numberGreaterThan
  | .lt, .intT => some .numberLessThan
  | .lt, .floatT => some .numberLessThan
  | _, _ => Option.none

/-- AST shapes an `if` test can take, as far as condition.py inspects them. -/
inductive TestExpr where
  | name (id : String)
  | const (v : PyConst)
  | subscript (value : TestExpr) (slice : TestExpr)
  | compare (left : TestExpr) (ops : List CmpOp) (comparators : List TestExpr)
  | callMethod (obj : TestExpr) (attr : String) (args : List TestExpr)
  | otherE
  deriving Repr

/-- condition.py get_var_name: a bare name, or a name subscripted by a
constant rendered as `name.slice`. -/
def get_var_name : TestExpr → Option String
  | .name id => some id
  | .subscript (.name id) (.const v) => some (id ++ "." ++ pyConstStr v)
  | _ => Option.none

/-- condition.py if_value (lines 70-105).  The Python parameter `var_type`
is a runtime VALUE inspected with `isinstance` (bool before str before
int/float, mirroring the elif order); the only caller, `build_condition`,
always passes `None`, which lands in the final general union-of-types
truthiness branch. -/
def if_value (name : String) (var_type : PyConst) : Condition :=
  let param := "$.register." ++ name
  match var_type with
  | .bool _ => Condition.booleanEquals param true
  | .str _ =>
      Condition.andAll [Condition.isPresent param, Condition.isNotNull param,
        Condition.negation (Condition.cmp .stringEquals param (.str ""))]
  | .int _ =>
      Condition.andAll [Condition.isPresent param, Condition.isNotNull param,
        Condition.negation (Condition.cmp .numberEquals param (.int 0))]
  | .float _ =>
      Condition.andAll [Condition.isPresent param, Condition.isNotNull param,
        Condition.negation (Condition.cmp .numberEquals param (.int 0))]
  | _ =>
      Condition.andAll [Condition.isPresent param, Condition.isNotNull param,
        Condition.orAny [
          Condition.andAll [Condition.isBoolean param,
            Condition.booleanEquals param true],
          Condition.andAll [Condition.isString param,
            Condition.negation (Condition.cmp .stringEquals param (.str ""))],
          Condition.andAll [Condition.isNumeric param,
            Condition.negation (Condition.cmp .numberEquals param (.int 0))],
          Condition.isPresent (param ++ "[0]")]]

/-- condition.py build_condition (lines 16-67).  Any shape falling through
the recognized forms raises; the human-readable Choice label returned
alongside the condition in Python is presentation-only and not modelled. -/
def build_condition (test : TestExpr) : Except String Condition :=
  match test with
  | .name id => .ok (if_value id PyConst.none)
  | .subscript (.name id) (.const v) =>
      .ok (if_value (id ++ "." ++ pyConstStr v) PyConst.none)
  | .compare left ops comparators =>
      match get_var_name left, ops, comparators with
      | some var_name, [op], [.const c] =>
          match comparator_map op c.pyType with
          | some comp => .ok (.cmp comp ("$.register." ++ var_name) c)
          | Option.none => .error ("Unhandled test")
      | _, _, _ => .error ("Unhandled test")
  | .callMethod obj attr args =>
      if attr = "startswith" then
        match get_var_name obj, args with
        | some var_name, [.const c] =>
            .ok (.andAll [.isPresent ("$.register." ++ var_name),
              .isString ("$.register." ++ var_name),
              .stringMatches ("$.register." ++ var_name) (pyConstStr c ++ "*")])
        | _, _ => .error ("Unhandled test")
      else .error ("Unhandled test")
  | _ => .error ("Unhandled test")

/-- Claim C6: for a test `name op constant` with a single operator and a
single constant comparator, the result is the typed comparator chosen by
`comparator_map` from the operator and the dynamic type of the constant,
applied at path `$.register.<name>`; when the pair is not in the table the
compile fails.  The final conjuncts spell the table out: string-equals for
string equality, number-equals for integer equality, number-less-than for
`<` on int/float, number-greater-than for `>` on int/float. -/
theorem comparison_condition_C6 (x : String) (op : CmpOp) (c : PyConst) :
    (∀ comp, comparator_map op c.pyType = some comp →
      build_condition (.compare (.name x) [op] [.const c]) =
        .ok (.cmp comp ("$.register." ++ x) c)) ∧
    (comparator_map op c.pyType = Option.none →
      build_condition (.compare (.name x) [op] [.const c]) =
        .error ("Unhandled test")) ∧
    comparator_map .eq .strT = some .stringEquals ∧
    comparator_map .eq .intT = some .numberEquals ∧
    comparator_map .lt .intT = some .numberLessThan ∧
    comparator_map .lt .floatT = some .numberLessThan ∧
    comparator_map .gt .intT = some .numberGreaterThan ∧
    comparator_map .gt .floatT = some .numberGreaterThan := by
  refine ⟨?_, ?_, rfl, rfl, rfl, rfl, rfl, rfl⟩
  · intro comp hcomp
    simp [build_condition, get_var_name, hcomp]
  · intro hnone
    simp [build_condition, get_var_name, hnone]

/-- Witness for C6: integer equality yields the number-equals comparator. -/
theorem comparison_condition_C6_witness :
    build_condition (.compare (.name ("x")) [CmpOp.eq] [.const (.int 5)]) =
      .ok (.cmp .numberEquals ("$.register.x") (.int 5)) :=
  (comparison_condition_C6 ("x") CmpOp.eq (.int 5)).1 .numberEquals rfl

/-- Counterexample for claim C7: a bare-name test compiles to the general
union-of-types truthiness condition, which is none of the narrower per-type
forms; `build_condition` never consults a declared variable type (it always
passes `None` for `var_type`), so this holds whatever type the variable was
declared with. -/
theorem bare_name_narrowing_C7_counterexample :
    build_condition (.name ("x")) =
      .ok (.andAll [.isPresent ("$.register.x"), .isNotNull ("$.register.x"),
        .orAny [
          .andAll [.isBoolean ("$.register.x"),
            .booleanEquals ("$.register.x") true],
          .andAll [.isString ("$.register.x"),
            .negation (.cmp .stringEquals ("$.register.x") (.str ""))],
          .andAll [.isNumeric ("$.register.x"),
            .negation (.cmp .numberEquals ("$.register.x") (.int 0))],
          .isPresent ("$.register.x[0]")]]) ∧
    if_value ("x") PyConst.none ≠ if_value ("x") (.bool true) ∧
    if_value ("x") PyConst.none ≠ if_value ("x") (.str ("s")) ∧
    if_value ("x") PyConst.none ≠ if_value ("x") (.int 1) ∧
    if_value ("x") PyConst.none ≠ if_value ("x") (.float 1) := by
  refine ⟨rfl, ?_, ?_, ?_, ?_⟩ <;> simp [if_value]

/-- Amended C7: `build_condition` always calls `if_value` with
`var_type = None`, so a bare-name test always produces the general
union-of-types truthiness condition regardless of any declared type; the
narrower per-type forms exist inside `if_value` (e.g. boolean-equals-true
for a bool value) but are unreachable from `build_condition`. -/
theorem bare_name_general_truthiness_C7 (id : String) :
    build_condition (.name id) = .ok (if_value id PyConst.none) ∧
    if_value id PyConst.none =
      .andAll [.isPresent ("$.register." ++ id),
        .isNotNull ("$.register." ++ id),
        .orAny [
          .andAll [.isBoolean ("$.register." ++ id),
            .booleanEquals ("$.register." ++ id) true],
          .andAll [.isString ("$.register." ++ id),
            .negation (.cmp .stringEquals ("$.register." ++ id) (.str ""))],
          .andAll [.isNumeric ("$.register." ++ id),
            .negation (.cmp .numberEquals ("$.register." ++ id) (.int 0))],
          .isPresent ("$.register." ++ id ++ "[0]")]] ∧
    if_value id (.bool true) =
      .booleanEquals ("$.register." ++ id) true :=
  ⟨rfl, rfl, rfl⟩

/-! ### Loop iterator concurrency (steps.py _get_iterator, handle_list_comp)

Only the concurrency-resolution prologues are embedded: in
`_get_iterator` (steps.py 339-352) the maximum concurrency is fully decided
before the iterator dispatch (which merely selects the items path or
rejects the iterator shape), and in `handle_list_comp` (steps.py 465-476)
the concurrency and iteration variable are decided together. -/

/-- Iterator expressions as the two resolution sites inspect them. -/
inductive IterExpr where
  | name (id : String)
  | const (v : PyConst)
  | call (funcName : String) (args : List IterExpr)
  | otherI
  deriving Repr

/-- Concurrency resolution of `SFNScope._get_iterator` (steps.py 339-352):
`max_concurrency` starts at 1; a `concurrent(...)` wrapper overrides it with
`args[1].value` when a second argument is present, with 0 otherwise; an
empty argument list fails on `iterator.args[0]`, and a non-constant second
argument fails on `.value`. -/
def get_iterator_max_concurrency : IterExpr → Except String PyConst
  | .call ("concurrent") args =>
      match args with
      | [] => .error ("IndexError: concurrent() with no iterator argument")
      | [_] => .ok (.int 0)
      | _ :: .const c :: _ => .ok c
      | _ :: _ :: _ => .error ("AttributeError: args[1] has no value")
  | _ => .ok (.int 1)

/-- Iterator resolution of `SFNScope.handle_list_comp` (steps.py 465-476):
a `concurrent(...)` wrapper reads `args[1].value` unconditionally (an index
error when absent) and requires `args[0]` to be a bare name; a bare-name
iterator yields concurrency 0; anything else raises.  Returns the resolved
(max-concurrency, iteration-source name) pair. -/
def list_comp_iterator : IterExpr → Except String (PyConst × String)
  | .call ("concurrent") args =>
      match args.get? 1 with
      | Option.none => .error ("IndexError: concurrent() without concurrency")
      | some (.const c) =>
          match args.get? 0 with
          | some (.name id) => .ok (c, id)
          | some _ => .error ("AttributeError: args[0] has no id")
          | Option.none => .error ("IndexError: concurrent() with no iterator")
      | some _ => .error ("AttributeError: args[1] has no value")
  | .name id => .ok ((.int 0), id)
  | _ => .error ("Unsupported list comp iterator, variables only")

/-- Counterexample for claim C5: list-comprehension lowering does NOT
resolve concurrency by the for-loop rules.  For the bare-name iterator `xs`
the for-loop path keeps the default 1 while the list-comp path resolves 0,
and for `concurrent(xs)` without an explicit concurrency the for-loop path
resolves 0 (unbounded) while the list-comp path fails on `args[1]`. -/
theorem loop_concurrency_C5_counterexample :
    get_iterator_max_concurrency (.name ("xs")) = .ok (.int 1) ∧
    list_comp_iterator (.name ("xs")) = .ok ((.int 0), "xs") ∧
    (PyConst.int 1) ≠ (PyConst.int 0) ∧
    get_iterator_max_concurrency (.call ("concurrent") [.name ("xs")]) =
      .ok (.int 0) ∧
    list_comp_iterator (.call ("concurrent") [.name ("xs")]) =
      .error ("IndexError: concurrent() without concurrency") := by
  refine ⟨rfl, rfl, by decide, rfl, rfl⟩

/-- Amended C5: for-loop lowering resolves the Map maximum concurrency as
`N` for `concurrent(inner, N)` (0 meaning unbounded), 0 for
`concurrent(inner)` without an explicit argument, and the default 1 for any
other iterator shape.  List-comprehension lowering follows different rules:
it indexes `args[1]` unconditionally, so `concurrent(inner, N)` gives `N`
but `concurrent(inner)` without a concurrency argument is a compile-time
failure, the wrapped iterator must be a bare name, and a bare-name iterator
defaults to 0 (unbounded), not 1. -/
theorem loop_concurrency_C5_amended (id : String) (inner : IterExpr)
    (c : PyConst) (rest : List IterExpr) :
    get_iterator_max_concurrency (.call ("concurrent") (inner :: .const c :: rest)) =
      .ok c ∧
    get_iterator_max_concurrency (.call ("concurrent") [inner]) = .ok (.int 0) ∧
    (∀ e : IterExpr, (∀ args, e ≠ .call ("concurrent") args) →
      get_iterator_max_concurrency e = .ok (.int 1)) ∧
    list_comp_iterator (.call ("concurrent") (.name id :: .const c :: rest)) =
      .ok (c, id) ∧
    (∃ msg, list_comp_iterator (.call ("concurrent") [inner]) = .error msg) ∧
    list_comp_iterator (.name id) = .ok ((.int 0), id) := by
  refine ⟨rfl, rfl, ?_, rfl, ⟨_, rfl⟩, rfl⟩
  intro e he
  match e with
  | .name i => rfl
  | .const v => rfl
  | .otherI => rfl
  | .call f args =>
      by_cases hf : f = "concurrent"
      · exact absurd (by rw [hf]) (he args)
      · unfold get_iterator_max_concurrency
        split
        · rename_i heq
          exact absurd (by injection heq with h1 _; rw [h1]) (he args)
        · rfl

/-- Witness for the amended C5 at concrete iterators. -/
theorem loop_concurrency_C5_amended_witness :
    get_iterator_max_concurrency
      (.call ("concurrent") [.name ("xs"), .const (.int 3)]) = .ok (.int 3) ∧
    get_iterator_max_concurrency (.const (.int 7)) = .ok (.int 1) ∧
    list_comp_iterator
      (.call ("concurrent") [.name ("xs"), .const (.int 3)]) =
        .ok ((.int 3), "xs") :=
  ⟨(loop_concurrency_C5_amended ("xs") (.name ("xs")) (.int 3) []).1,
   (loop_concurrency_C5_amended ("xs") (.name ("xs")) (.int 3) []).2.2.1
     (.const (.int 7)) (fun _ h => IterExpr.noConfusion h),
   (loop_concurrency_C5_amended ("xs") (.name ("xs")) (.int 3) []).2.2.2.1⟩

/-! ### Return lowering (steps.py map_arg, _intrinsic_function, _return_value,
handle_return) -/

/-- Value expressions as inspected by the return-lowering path. -/
inductive VExpr where
  | name (id : String)
  | const (v : PyConst)
  | tupleE (elts : List VExpr)
  | call (funcName : String) (args : List VExpr)
  | subscriptV (value : VExpr) (slice : VExpr)
  | otherV
  deriving Repr

/-- Python to-JSON embedding of a constant on the emitted parameters. -/
def constToJValue : PyConst → JValue
  | .str s => .str s
  | .int n => .int n
  | .float q => .float q
  | .bool b => .bool b
  | .none => .null

/-- steps.py map_arg (321-334): a name becomes `$.<var_path><id>`, a
constant passes its value through (every consumer interpolates it into an
f-string, so it is rendered with `pyConstStr` here), a name subscripted by a
constant becomes `$.<var_path><id>[<slice>]`, anything else raises. -/
def map_arg (var_path : String) : VExpr → Except String String
  | .name id => .ok ("$." ++ var_path ++ id)
  | .const v => .ok (pyConstStr v)
  | .subscriptV (.name id) (.const v) =>
      .ok ("$." ++ var_path ++ id ++ "[" ++ pyConstStr v ++ "]")
  | _ => .error ("Args must be Name or Constant")

/-- steps.py _is_intrinsic_function (659-663). -/
def is_intrinsic_function (funcName : String) : Bool :=
  funcName = "range" || funcName = "len"

/-- steps.py _intrinsic_function (665-691): `range` lowers to
`States.ArrayRange(start, States.MathAdd(end, -1), step)` with defaults
start 0, end 0, step 1; `len` with one argument lowers to
`States.ArrayLength(arg)`; everything else raises.  The returned string is
wrapped by `JsonPath.string_at` in Python, modelled as `JValue.jsonPath`. -/
def intrinsic_function (funcName : String) (callArgs : List VExpr)
    (var_path : String) : Except String (JValue × String) := do
  let args ← callArgs.mapM (map_arg var_path)
  if funcName = "range" then
    let startEnd :=
      match args with
      | [a] => ("0", a)
      | a :: b :: _ => (a, b)
      | [] => ("0", "0")
    let step_val :=
      match args with
      | [_, _, c] => c
      | _ => "1"
    .ok (.jsonPath ("States.ArrayRange(" ++ startEnd.1 ++ ", States.MathAdd(" ++
      startEnd.2 ++ ", -1), " ++ step_val ++ ")"), "range")
  else if funcName = "len" then
    match args with
    | [a] => .ok (.jsonPath ("States.ArrayLength(" ++ a ++ ")"), "len")
    | _ => .error ("Cannot handle intrinsic function")
  else .error ("Cannot handle intrinsic function")

/-- steps.py _return_value (879-888): a name lowers to the register path, a
constant to its value, an intrinsic call to its lowered path; anything else
raises. -/
def return_value : VExpr → Except String JValue
  | .name id => .ok (.jsonPath ("$.register." ++ id))
  | .const v => .ok (constToJValue v)
  | .call f args =>
      if is_intrinsic_function f then (intrinsic_function f args ("")).map Prod.fst
      else .error ("Unanticipated return type")
  | _ => .error ("Unanticipated return type")

/-- steps.py handle_return (890-916), returning the parameters of the
emitted terminal Pass.  A tuple return maps the output schema keys to the
lowered elements after a length check; a bare name or constant needs a
single-field schema; a bare `return` emits a parameterless Pass; every
other return value raises `Unhandled return value type`. -/
def handle_return (output : List String) (value : Option VExpr) :
    Except String (List (String × JValue)) :=
  match value with
  | some (.tupleE elts) =>
      if output.length ≠ elts.length then .error ("Mismatched return value counts")
      else (output.zip elts).mapM
        (fun kv => (return_value kv.2).map (fun jv => (kv.1, jv)))
  | Option.none => .ok []
  | some v =>
      match v with
      | .name _ | .const _ =>
          match output with
          | [k] => (return_value v).map (fun jv => [(k, jv)])
          | _ => .error ("Mismatched return value counts")
      | _ => .error ("Unhandled return value type")

/-- Counterexample for claim C9: with a single-field schema, a return whose
sole value is the intrinsic call `len(xs)` does NOT compile — handle_return
only accepts a bare name or a constant outside a tuple — even though
`_return_value` can lower that same intrinsic call (it is reachable only
for tuple elements). -/
theorem single_return_C9_counterexample :
    handle_return [("result")] (some (.call ("len") [.name ("xs")])) =
      .error ("Unhandled return value type") ∧
    return_value (.call ("len") [.name ("xs")]) =
      .ok (.jsonPath ("States.ArrayLength($.xs)")) :=
  ⟨rfl, rfl⟩

/-- Amended C9: for a single-field output schema, a return of a bare name
or a constant compiles to a terminal Pass with the one field mapped to the
lowered value; an intrinsic call as the sole return value is a compile
error (intrinsic calls are lowered only as tuple-return elements), and so
is every other single-value shape. -/
theorem single_return_C9_amended (k k2 id : String) (c : PyConst) :
    handle_return [k] (some (.name id)) =
      .ok [(k, .jsonPath ("$.register." ++ id))] ∧
    handle_return [k] (some (.const c)) = .ok [(k, constToJValue c)] ∧
    (∀ f args, handle_return [k] (some (.call f args)) =
      .error ("Unhandled return value type")) ∧
    (∀ a b, handle_return [k] (some (.subscriptV a b)) =
      .error ("Unhandled return value type")) ∧
    handle_return [k] (some .otherV) = .error ("Unhandled return value type") ∧
    handle_return [k, k2]
      (some (.tupleE [.name id, .call ("len") [.name ("xs")]])) =
        .ok [(k, .jsonPath ("$.register." ++ id)),
             (k2, .jsonPath ("States.ArrayLength($.xs)"))] :=
  ⟨rfl, rfl, fun _ _ => rfl, fun _ _ => rfl, rfl, rfl⟩

/-! ### Try/except lowering (steps.py CatchHandler, handle_try,
build_exception_handler, attach_catch)

The bodies of the try and of each handler are compiled recursively in
child scopes (their scope effect is `handle_try_scope` above); here each
compiled body is represented by its resulting chain of states, a state
carrying just an identifier and whether it exposes the catch-attachment
hook (`hasattr(s, "add_catch")`).  The successor bookkeeping of
`attach_catch` (returning a continuation thunk for an empty handler body)
is not modelled; the attachment pairs it performs are. -/

/-- An emitted state as the catch-attachment loop sees it. -/
structure TState where
  id : Nat
  hasAddCatch : Bool
  deriving DecidableEq, Repr

/-- The `type` of an `ast.ExceptHandler`: a name node or anything else. -/
inductive ExcType where
  | nameT (id : String)
  | nonName
  deriving DecidableEq, Repr

/-- One `except` arm: its type, optional bound name, and compiled body. -/
structure ExceptArm where
  type : ExcType
  name : Option String
  body : List TState
  deriving DecidableEq, Repr

/-- steps.py CatchHandler dataclass (32-36).  The declared field default for
`result_path` is `$.error-info`; note that `handle_try` always passes the
field explicitly. -/
structure CatchHandler where
  errors : List String
  body : List TState
  resultPath : Option String := some ("$.error-info")
  deriving DecidableEq, Repr

/-- steps.py build_exception_handler (288-296): only a catch arm typed by
the name `Exception` is accepted, producing a `States.ALL` handler with the
result path handed in by the caller. -/
def build_exception_handler (handlerType : ExcType) (chain : List TState)
    (result_path : Option String) : Except String CatchHandler :=
  match handlerType with
  | .nameT id =>
      if id = "Exception" then
        .ok { errors := [("States.ALL")], body := chain, resultPath := result_path }
      else .error ("Unhandled exception type")
  | .nonName => .error ("Unhandled exception type")

/-- The per-arm loop of handle_try (steps.py 264-277): compute the result
path (`$.register.<name>` when the arm binds a name, otherwise None —
bypassing the dataclass default), extend the chain with the handler body
when it is nonempty, and collect the built CatchHandler. -/
def process_handlers : List ExceptArm →
    Except String (List TState × List CatchHandler)
  | [] => .ok ([], [])
  | arm :: rest => do
      let result_path := arm.name.map (fun n => "$.register." ++ n)
      let h ← build_exception_handler arm.type arm.body result_path
      let (chains, handlers) ← process_handlers rest
      .ok ((if arm.body.isEmpty then chains else arm.body ++ chains),
        h :: handlers)

/-- The catch-attachment double loop of handle_try (steps.py 279-284):
every state in the combined chain that exposes `add_catch` receives every
handler. -/
def attach_catch_pairs (chain : List TState) (handlers : List CatchHandler) :
    List (TState × CatchHandler) :=
  ((chain.filter (fun s => s.hasAddCatch)).map
    (fun s => handlers.map (fun h => (s, h)))).flatten

/-- steps.py handle_try (261-286) at the state level: the combined chain,
the built handlers, and the performed catch attachments. -/
def handle_try (bodyChain : List TState) (arms : List ExceptArm) :
    Except String (List TState × List CatchHandler × List (TState × CatchHandler)) := do
  let (hchains, handlers) ← process_handlers arms
  let chain := bodyChain ++ hchains
  .ok (chain, handlers, attach_catch_pairs chain handlers)

theorem process_handlers_chain_mem (arms : List ExceptArm)
    (hchains : List TState) (handlers : List CatchHandler)
    (hok : process_handlers arms = .ok (hchains, handlers))
    (arm : ExceptArm) (ha : arm ∈ arms) (s : TState) (hs : s ∈ arm.body) :
    s ∈ hchains := by
  induction arms generalizing hchains handlers with
  | nil => cases ha
  | cons a rest ih =>
    rw [process_handlers] at hok
    cases hbe : build_exception_handler a.type a.body
        (a.name.map (fun n => "$.register." ++ n)) with
    | error e => rw [hbe] at hok; exact absurd hok (by simp [Bind.bind, Except.bind])
    | ok h =>
      rw [hbe] at hok
      cases hpr : process_handlers rest with
      | error e =>
        rw [hpr] at hok
        exact absurd hok (by simp [Bind.bind, Except.bind])
      | ok p =>
        rw [hpr] at hok
        simp only [Bind.bind, Except.bind, Except.ok.injEq] at hok
        have hpair := hok
        have hch : hchains = (if a.body.isEmpty then p.1 else a.body ++ p.1) := by
          have := congrArg Prod.fst hpair
          simpa using this.symm
        rcases List.mem_cons.mp ha with rfl | hrest
        · have hne : arm.body.isEmpty = false := by
            cases hb : arm.body with
            | nil => rw [hb] at hs; cases hs
            | cons x xs => rfl
          rw [hch, hne]
          simpa using Or.inl hs
        · have hmem : s ∈ p.1 := ih p.1 p.2 (by rw [hpr]) hrest
          rw [hch]
          by_cases hb : a.body.isEmpty
          · simpa [hb] using hmem
          · simp only [hb, if_false]
            exact List.mem_append_right _ hmem

theorem attach_catch_pairs_mem (chain : List TState)
    (handlers : List CatchHandler) (s : TState) (hs : s ∈ chain)
    (hcatch : s.hasAddCatch = true) (h : CatchHandler) (hh : h ∈ handlers) :
    (s, h) ∈ attach_catch_pairs chain handlers := by
  unfold attach_catch_pairs
  refine List.mem_flatten.mpr ⟨handlers.map (fun h => (s, h)), ?_, ?_⟩
  · exact List.mem_map_of_mem _ (List.mem_filter.mpr ⟨hs, by simpa using hcatch⟩)
  · exact List.mem_map_of_mem _ hh

/-- Claim C10: the catch-attachment loop runs over the combined chain of
try-body and handler-body states; consequently every handler-body state
exposing the catch-attachment hook receives every catch handler. -/
theorem try_catch_attachment_C10 (bodyChain : List TState)
    (arms : List ExceptArm) (chain : List TState)
    (handlers : List CatchHandler) (pairs : List (TState × CatchHandler))
    (hok : handle_try bodyChain arms = .ok (chain, handlers, pairs))
    (arm : ExceptArm) (ha : arm ∈ arms) (s : TState) (hs : s ∈ arm.body)
    (hcatch : s.hasAddCatch = true) :
    ∀ h ∈ handlers, (s, h) ∈ pairs := by
  intro h hh
  rw [handle_try] at hok
  cases hpr : process_handlers arms with
  | error e => rw [hpr] at hok; exact absurd hok (by simp [Bind.bind, Except.bind])
  | ok p =>
    rw [hpr] at hok
    simp only [Bind.bind, Except.bind, Except.ok.injEq] at hok
    have hchain : chain = bodyChain ++ p.1 := by
      have := congrArg Prod.fst hok
      simpa using this.symm
    have hhandlers : handlers = p.2 := by
      have := congrArg (fun t => t.2.1) hok
      simpa using this.symm
    have hpairs : pairs = attach_catch_pairs (bodyChain ++ p.1) p.2 := by
      have := congrArg (fun t => t.2.2) hok
      simpa using this.symm
    have hsch : s ∈ bodyChain ++ p.1 :=
      List.mem_append_right _
        (process_handlers_chain_mem arms p.1 p.2 (by rw [hpr]) arm ha s hs)
    rw [hpairs]
    exact attach_catch_pairs_mem _ _ s hsch hcatch h (hhandlers ▸ hh)

/-- Witness for C10: a one-arm try whose handler body state exposes the
hook receives the handler on itself. -/
theorem try_catch_attachment_C10_witness :
    ((⟨1, true⟩ : TState),
      ({ errors := [("States.ALL")], body := [⟨1, true⟩],
         resultPath := some ("$.register.e") } : CatchHandler)) ∈
      (attach_catch_pairs [⟨0, true⟩, ⟨1, true⟩]
        [{ errors := [("States.ALL")], body := [⟨1, true⟩],
           resultPath := some ("$.register.e") }]) :=
  try_catch_attachment_C10 [⟨0, true⟩]
    [⟨.nameT ("Exception"), some ("e"), [⟨1, true⟩]⟩]
    [⟨0, true⟩, ⟨1, true⟩]
    [{ errors := [("States.ALL")], body := [⟨1, true⟩],
       resultPath := some ("$.register.e") }]
    (attach_catch_pairs [⟨0, true⟩, ⟨1, true⟩]
      [{ errors := [("States.ALL")], body := [⟨1, true⟩],
         resultPath := some ("$.register.e") }])
    rfl
    ⟨.nameT ("Exception"), some ("e"), [⟨1, true⟩]⟩ (by decide)
    ⟨1, true⟩ (by decide) rfl
    { errors := [("States.ALL")], body := [⟨1, true⟩],
      resultPath := some ("$.register.e") } (by decide)

/-- Evidence for C8: the CatchHandler dataclass declares the default result
path `$.error-info`, but handle_try always passes the field explicitly —
None for an unnamed `except Exception` arm (so the emitted catch falls back
to the builder default instead of `$.error-info`), and `$.register.<name>`
for a named arm (that half of the claim holds). -/
theorem catch_result_path_C8_evidence :
    (({ errors := [], body := [] } : CatchHandler)).resultPath =
      some ("$.error-info") ∧
    handle_try [⟨0, true⟩] [⟨.nameT ("Exception"), Option.none, [⟨1, false⟩]⟩] =
      .ok ([⟨0, true⟩, ⟨1, false⟩],
        [{ errors := [("States.ALL")], body := [⟨1, false⟩],
           resultPath := Option.none }],
        [(⟨0, true⟩,
          { errors := [("States.ALL")], body := [⟨1, false⟩],
            resultPath := Option.none })]) ∧
    handle_try [⟨0, true⟩] [⟨.nameT ("Exception"), some ("e"), [⟨1, false⟩]⟩] =
      .ok ([⟨0, true⟩, ⟨1, false⟩],
        [{ errors := [("States.ALL")], body := [⟨1, false⟩],
           resultPath := some ("$.register.e") }],
        [(⟨0, true⟩,
          { errors := [("States.ALL")], body := [⟨1, false⟩],
            resultPath := some ("$.register.e") })]) ∧
    (Option.none : Option String) ≠ some ("$.error-info") := by
  exact ⟨rfl, rfl, rfl, by decide⟩

/-! ### Launcher dispatcher (lmbda.py)

`PythonLambda.create_construct` writes the dispatcher module as source
text (lmbda.py 114-136); the definitions below embed the semantics of that
generated `launch(event, context)` entry point, together with
`PythonLambda.register` (lmbda.py 100-108). -/

/-- Python runtime values crossing the dispatcher boundary. -/
inductive PyVal where
  | str (s : String)
  | int (n : Int)
  | mapping (m : List (String × PyVal))
  | tup (xs : List PyVal)
  | pynone
  deriving Repr

/-- One registered compute unit as the generated dispatcher sees it: the
declared positional argument names (`definition['args']`) and the callable
(`definition['function']`), which receives its keyword arguments. -/
structure LauncherEntry where
  args : List String
  func : List (String × PyVal) → PyVal

/-- Python dict lookup `event[k]` (present keys only). -/
def pyGet (event : List (String × PyVal)) (k : String) : Option PyVal :=
  (event.find? (fun kv => kv.1 = k)).map (fun kv => kv.2)

/-- lmbda.py PythonLambda.register (100-108): duplicate registered names
are rejected, otherwise the entry is recorded under its name. -/
def register (functions : List (String × LauncherEntry)) (name : String)
    (entry : LauncherEntry) : Except String (List (String × LauncherEntry)) :=
  if (functions.map Prod.fst).contains name then
    .error ("Multiple functions with the same name")
  else .ok (functions ++ [(name, entry)])

/-- The `launchers[...]` dictionary lookup of the generated dispatcher. -/
def lookup_launcher (launchers : List (String × LauncherEntry))
    (name : String) : Option LauncherEntry :=
  (launchers.find? (fun kv => kv.1 = name)).map (fun kv => kv.2)

/-- The generated kwargs marshalling:
`{a: event[a] for a in definition['args'] if a in event}`. -/
def build_kwargs (args : List String) (event : List (String × PyVal)) :
    List (String × PyVal) :=
  args.filterMap (fun a => (pyGet event a).map (fun v => (a, v)))

/-- The generated result normalization (lmbda.py 127-131): a Mapping passes
through, a tuple becomes `{arg0, arg1, ...}` in order, anything else
becomes `{arg0: value}`. -/
def normalize_result : PyVal → PyVal
  | .mapping m => .mapping m
  | .tup xs => .mapping (xs.enum.map (fun p => ("arg" ++ toString p.1, p.2)))
  | v => .mapping [(("arg0"), v)]

/-- The generated dispatcher entry point (lmbda.py 114-134): read the
`launcher_target` field, select the registered callable, marshal the
matching event fields into keyword arguments, invoke, and normalize. -/
def launch (launchers : List (String × LauncherEntry))
    (event : List (String × PyVal)) : Except String PyVal :=
  match pyGet event ("launcher_target") with
  | some (.str name) =>
      match lookup_launcher launchers name with
      | some definition =>
          .ok (normalize_result (definition.func (build_kwargs definition.args event)))
      | Option.none => .error ("KeyError: launcher_target not registered")
  | some _ => .error ("KeyError: launcher_target not registered")
  | Option.none => .error ("KeyError: launcher_target")

/-- Claim C4: invoking the dispatcher with an event whose `launcher_target`
names a registered unit calls that unit with exactly the event fields whose
keys match its declared argument names, and normalizes the result: a
mapping passes through unchanged, a tuple of k elements becomes
`{arg0, ..., arg(k-1)}` in order, and any other value becomes
`{arg0: value}`. -/
theorem dispatcher_C4 (launchers : List (String × LauncherEntry))
    (event : List (String × PyVal)) (name : String) (entry : LauncherEntry)
    (hT : pyGet event ("launcher_target") = some (.str name))
    (hF : lookup_launcher launchers name = some entry) :
    (∀ a v, (a, v) ∈ build_kwargs entry.args event ↔
      (a ∈ entry.args ∧ pyGet event a = some v)) ∧
    launch launchers event =
      .ok (normalize_result (entry.func (build_kwargs entry.args event))) ∧
    (∀ m, entry.func (build_kwargs entry.args event) = .mapping m →
      launch launchers event = .ok (.mapping m)) ∧
    (∀ xs, entry.func (build_kwargs entry.args event) = .tup xs →
      launch launchers event =
        .ok (.mapping (xs.enum.map (fun p => ("arg" ++ toString p.1, p.2))))) ∧
    (∀ s, entry.func (build_kwargs entry.args event) = .str s →
      launch launchers event = .ok (.mapping [(("arg0"), .str s)])) ∧
    (∀ n, entry.func (build_kwargs entry.args event) = .int n →
      launch launchers event = .ok (.mapping [(("arg0"), .int n)])) ∧
    (entry.func (build_kwargs entry.args event) = .pynone →
      launch launchers event = .ok (.mapping [(("arg0"), .pynone)])) := by
  have hmain : launch launchers event =
      .ok (normalize_result (entry.func (build_kwargs entry.args event))) := by
    simp [launch, hT, hF]
  refine ⟨?_, hmain, ?_, ?_, ?_, ?_, ?_⟩
  · intro a v
    constructor
    · intro hmem
      rcases List.mem_filterMap.mp hmem with ⟨a0, ha0, hf⟩
      rcases Option.map_eq_some'.mp hf with ⟨v0, hv0, heq⟩
      have h1 : a0 = a := congrArg Prod.fst heq
      have h2 : v0 = v := congrArg Prod.snd heq
      subst h1
      subst h2
      exact ⟨ha0, hv0⟩
    · rintro ⟨ha, hv⟩
      refine List.mem_filterMap.mpr ⟨a, ha, ?_⟩
      rw [hv]
      rfl
  · intro m hm
    rw [hmain, hm]
    rfl
  · intro xs hxs
    rw [hmain, hxs]
    rfl
  · intro s hs
    rw [hmain, hs]
    rfl
  · intro n hn
    rw [hmain, hn]
    rfl
  · intro hp
    rw [hmain, hp]
    rfl

/-- Witness for C4: a two-argument unit returning a pair is dispatched and
normalized to `{arg0, arg1}`. -/
theorem dispatcher_C4_witness :
    launch [(("step1"),
      ⟨[("a"), ("b")], fun _ => .tup [.int 1, .int 2]⟩)]
      [(("launcher_target"), .str ("step1")), (("a"), .int 5)] =
      .ok (.mapping [(("arg0"), .int 1), (("arg1"), .int 2)]) := by
  have h := dispatcher_C4
    [(("step1"), ⟨[("a"), ("b")], fun _ => .tup [.int 1, .int 2]⟩)]
    [(("launcher_target"), .str ("step1")), (("a"), .int 5)]
    ("step1") ⟨[("a"), ("b")], fun _ => .tup [.int 1, .int 2]⟩ rfl rfl
  exact h.2.2.2.1 [.int 1, .int 2] rfl

end PySfn
